import Mathlib

/-
Verification of the slipsentry ABI decoding core (src/slipsentry.py).

Bytes are modelled as `List Nat` (each entry one byte value); text (hex
input) is modelled as `List Nat` of ASCII code points.  Python exceptions
(`click.ClickException` with its distinct messages, plus the `IndexError`
that unguarded list indexing can raise) are modelled by `Except DecodeErr`.
All functions are executable and mirror the Python source line by line.
-/

namespace Slipsentry

/-- Error kinds of the decoder.  Each constructor corresponds to one
distinct `raise click.ClickException(...)` message in the source, plus
`indexError` for the Python `IndexError` raised by an out-of-range list
subscript `w[i]`. -/
inductive DecodeErr where
  | malformedHexOdd   -- "Hex length must be even"
  | malformedHex      -- "Invalid hex: ..."
  | dynHeadOOB        -- "Dynamic head points out of bounds"
  | dynBodyTrunc      -- "Dynamic body truncated"
  | badPathOffset     -- "Bad offset for path[]"
  | pathTruncated     -- "path[] truncated"
  | badPathOffsetV3   -- "Bad offset for path (V3)"
  | v3TooShort        -- "V3 struct too short"
  | unknownV2         -- "Unknown V2 swap layout"
  | indexError        -- Python IndexError (unstructured)
  deriving DecidableEq, Repr

/-- Python slice `l[a:b]` for non-negative bounds (clamping at the end of
the list, empty when `b <= a` or `a >= len(l)`). -/
def slice (l : List Nat) (a b : Nat) : List Nat :=
  (l.drop a).take (b - a)

/-- Source `strip0x`: `h[2:] if h.startswith("0x") else h`, on code points
(`'0' = 48`, `'x' = 120`).  `startswith` is case-sensitive. -/
def strip0x (h : List Nat) : List Nat :=
  if h.take 2 = [48, 120] then h.drop 2 else h

/-- Python `str.lower()` restricted to ASCII (`'A'..'Z'` are 65..90); the
inputs the decoder sees are ASCII hex text, where this agrees with Python. -/
def pyLowerChar (c : Nat) : Nat :=
  if 65 ≤ c ∧ c ≤ 90 then c + 32 else c

/-- Hex digit value as accepted by Python `bytes.fromhex`:
`'0'..'9' = 48..57`, `'a'..'f' = 97..102`, `'A'..'F' = 65..70`. -/
def hexVal (c : Nat) : Option Nat :=
  if 48 ≤ c ∧ c ≤ 57 then some (c - 48)
  else if 97 ≤ c ∧ c ≤ 102 then some (c - 87)
  else if 65 ≤ c ∧ c ≤ 70 then some (c - 55)
  else none

/-- Python `bytes.fromhex`: pairs of hex digits form bytes; an ASCII space
(32) may separate byte pairs and is skipped; anything else fails. -/
def fromhexAux : List Nat → Option (List Nat)
  | [] => some []
  | c :: rest =>
    if c = 32 then fromhexAux rest
    else match rest with
      | [] => none
      | c2 :: rest2 =>
        match hexVal c, hexVal c2 with
        | some a, some b => (fromhexAux rest2).map (fun bs => (16 * a + b) :: bs)
        | _, _ => none

/-- Source `as_bytes`: strip the `0x` prefix, lower-case, reject odd
length, then `bytes.fromhex`. -/
def as_bytes (h : List Nat) : Except DecodeErr (List Nat) :=
  if ¬ ((strip0x h).map pyLowerChar).length % 2 = 0 then .error .malformedHexOdd
  else match fromhexAux ((strip0x h).map pyLowerChar) with
    | some bs => .ok bs
    | none => .error .malformedHex

/-- Source `u256`: `int.from_bytes(b, "big") if b else 0` (big-endian;
empty gives 0, which the fold also gives). -/
def u256 (b : List Nat) : Nat :=
  b.foldl (fun acc x => acc * 256 + x) 0

/-- Source `words`: `[payload[i:i+32] for i in range(0, len(payload), 32)]`.
The final chunk may be shorter than 32 bytes. -/
def words (payload : List Nat) : List (List Nat) :=
  (List.range ((payload.length + 31) / 32)).map
    (fun k => slice payload (32 * k) (32 * k + 32))

/-- Source `is_offset_like`:
`(v % 32 == 0) and (0 <= v <= max(0, total - 32))` over Python ints
(Python `%` on a positive modulus agrees with `Int.emod`). -/
def is_offset_like (v total : Int) : Bool :=
  (v % 32 == 0) && (decide (0 ≤ v) && decide (v ≤ max 0 (total - 32)))

/-- Source `read_dyn`: reads `[len][bytes]` at absolute byte offset `off`;
`off + 32 > len(payload)` is a head-out-of-bounds failure,
`off + 32 + ln > len(payload)` a truncated body. -/
def read_dyn (payload : List Nat) (off : Nat) : Except DecodeErr (Nat × List Nat) :=
  if payload.length < off + 32 then .error .dynHeadOOB
  else if payload.length < off + 32 + u256 (slice payload off (off + 32)) then
    .error .dynBodyTrunc
  else
    .ok (u256 (slice payload off (off + 32)),
         slice payload (off + 32) (off + 32 + u256 (slice payload off (off + 32))))

/-- Source `to_hex_addr`: `"0x" + word32[-20:].hex()`.  The model keeps the
raw byte content `word32[-20:]` (the last 20 bytes, or the whole word when
it is shorter); the `0x`-hex rendering is an injective formatting step. -/
def to_hex_addr (word32 : List Nat) : List Nat :=
  word32.drop (word32.length - 20)

def SEL_V2_SWAP_EXACT_TOKENS_FOR_TOKENS : String := "38ed1739"
def SEL_V2_SWAP_TOKENS_FOR_EXACT_TOKENS : String := "8803dbee"
def SEL_V2_SWAP_EXACT_ETH_FOR_TOKENS : String := "7ff36ab5"
def SEL_V2_SWAP_EXACT_TOKENS_FOR_ETH : String := "18cbafe5"
def SEL_V2_SWAP_ETH_FOR_EXACT_TOKENS : String := "fb3bdb41"
def SEL_V3_EXACT_INPUT : String := "04e45aaf"
def SEL_V3_EXACT_OUTPUT : String := "09b81346"

/-- Decoded V2 fields: the Python `fields` dict.  Token variants set both
amounts; ETH variants set only `amount0` (modelled by `amount1 = none`). -/
structure V2Fields where
  amount0 : Nat
  amount1 : Option Nat
  to_addr : List Nat   -- the source's fields["to"]; `to` is reserved in Lean
  deadline : Nat
  deriving DecidableEq, Repr

/-- Source nested function `decode_path_at_arg` of `decode_v2`: reads the
offset word `w[arg_index]` (Python raises IndexError when missing),
validates it with `is_offset_like`, reads the dynamic length via
`read_dyn`, returns `[]` when the length is zero, rejects a path body
running past the buffer, else collects `ln` address words. -/
def decode_path_at_arg (H : List Nat) (arg_index : Nat) : Except DecodeErr (List (List Nat)) :=
  match (words H).get? arg_index with
  | none => .error .indexError
  | some wd =>
    if is_offset_like (u256 wd : Int) (H.length : Int) then
      match read_dyn H (u256 wd) with
      | .error e => .error e
      | .ok (ln, _body) =>
        if ln = 0 then .ok []
        else if H.length < u256 wd + 32 + ln * 32 then .error .pathTruncated
        else .ok ((List.range ln).map
          (fun i => to_hex_addr (slice H (u256 wd + 32 + i * 32) (u256 wd + 32 + (i + 1) * 32))))
    else .error .badPathOffset

/-- Source `decode_v2`: dispatch on the selector; token variants read
head words 0,1 then the path at argument 2 then words 3,4; ETH variants
read word 0, the path at argument 1, then words 2,3.  Each `w[i]` access
can raise IndexError, in this statement order. -/
def decode_v2 (payload : List Nat) (sel : String) :
    Except DecodeErr (V2Fields × List (List Nat)) :=
  if sel = SEL_V2_SWAP_EXACT_TOKENS_FOR_TOKENS ∨
     sel = SEL_V2_SWAP_TOKENS_FOR_EXACT_TOKENS ∨
     sel = SEL_V2_SWAP_EXACT_TOKENS_FOR_ETH then
    match (words payload).get? 0 with
    | none => .error .indexError
    | some w0 =>
      match (words payload).get? 1 with
      | none => .error .indexError
      | some w1 =>
        match decode_path_at_arg payload 2 with
        | .error e => .error e
        | .ok path =>
          match (words payload).get? 3 with
          | none => .error .indexError
          | some w3 =>
            match (words payload).get? 4 with
            | none => .error .indexError
            | some w4 =>
              .ok ({ amount0 := u256 w0, amount1 := some (u256 w1),
                     to_addr := to_hex_addr w3, deadline := u256 w4 }, path)
  else if sel = SEL_V2_SWAP_EXACT_ETH_FOR_TOKENS ∨
          sel = SEL_V2_SWAP_ETH_FOR_EXACT_TOKENS then
    match (words payload).get? 0 with
    | none => .error .indexError
    | some w0 =>
      match decode_path_at_arg payload 1 with
      | .error e => .error e
      | .ok path =>
        match (words payload).get? 2 with
        | none => .error .indexError
        | some w2 =>
          match (words payload).get? 3 with
          | none => .error .indexError
          | some w3 =>
            .ok ({ amount0 := u256 w0, amount1 := none,
                   to_addr := to_hex_addr w2, deadline := u256 w3 }, path)
  else .error .unknownV2

/-- The `while i < len(b)` loop of `parse_v3_path_bytes`: stop when fewer
than 23 bytes remain (`i + 3 + 20 > len(b)`), else skip 3 fee bytes and
take the next 20 bytes as a token. -/
def parse_v3_loop (b : List Nat) (i : Nat) : List (List Nat) :=
  if i < b.length then
    if b.length < i + 23 then []
    else slice b (i + 3) (i + 23) :: parse_v3_loop b (i + 23)
  else []
termination_by b.length - i
decreasing_by simp_wf; omega

/-- Source `parse_v3_path_bytes`: token(20) then repeated fee(3)+token(20);
a path shorter than one token gives `[]`, a trailing partial chunk is
dropped.  Tokens are kept as raw 20-byte slices (the source renders them
as `0x`-hex strings, an injective formatting step). -/
def parse_v3_path_bytes (b : List Nat) : List (List Nat) :=
  if b.length < 20 then [] else slice b 0 20 :: parse_v3_loop b 20

/-- V3 amount pair: the two head words 3 and 4 are labelled
`amountIn`/`amountOutMin` for exactInput and `amountOut`/`amountInMax`
otherwise; same positions, different dict keys in the source. -/
inductive V3Amounts where
  | input (amountIn amountOutMin : Nat)
  | output (amountOut amountInMax : Nat)
  deriving DecidableEq, Repr

/-- Decoded V3 fields (the Python `fields` dict of `decode_v3_exact`). -/
structure V3Fields where
  recipient : List Nat
  deadline : Nat
  amounts : V3Amounts
  deriving DecidableEq, Repr

/-- Source `decode_v3_exact`: requires `len(words(H)) >= 5` (note: chunks,
the last of which may be short), validates word 0 as the path offset,
reads the path bytes via `read_dyn`, then builds the fields from words
1-4 and parses the packed path. -/
def decode_v3_exact (payload : List Nat) (sel : String) :
    Except DecodeErr (V3Fields × List (List Nat)) :=
  if (words payload).length < 5 then .error .v3TooShort
  else
    match (words payload).get? 0 with
    | none => .error .indexError
    | some w0 =>
      if is_offset_like (u256 w0 : Int) (payload.length : Int) then
        match read_dyn payload (u256 w0) with
        | .error e => .error e
        | .ok (_ln, path_bytes) =>
          match (words payload).get? 1, (words payload).get? 2,
                (words payload).get? 3, (words payload).get? 4 with
          | some w1, some w2, some w3, some w4 =>
            .ok ({ recipient := to_hex_addr w1, deadline := u256 w2,
                   amounts :=
                     if sel = SEL_V3_EXACT_INPUT then
                       V3Amounts.input (u256 w3) (u256 w4)
                     else V3Amounts.output (u256 w3) (u256 w4) },
                 parse_v3_path_bytes path_bytes)
          | _, _, _, _ => .error .indexError
      else .error .badPathOffsetV3

/-- Big-endian byte encoding of `n` in `k` bytes (test-vector helper). -/
def beBytes (k n : Nat) : List Nat :=
  (List.range k).map (fun i => n / 256 ^ (k - 1 - i) % 256)

/-- A 32-byte big-endian word (test-vector helper). -/
def beWord (n : Nat) : List Nat := beBytes 32 n

/-- C2 counterexample buffer: 4 full head words and one 1-byte chunk
(129 bytes, so only 4 full 32-byte words). -/
def bufC2 : List Nat :=
  beWord 0 ++ beWord 0 ++ beWord 0 ++ beWord 153 ++ [7]

/-- C2 witness buffer: a 64-byte ETH-variant buffer (2 chunks, while the
layout indexes words 0..3) whose word 1 — the path offset — is 1, not
offset-like. -/
def bufC2w : List Nat := beWord 0 ++ beWord 1

/-- C3 counterexample buffer: 129 bytes, 5 chunks but only 4 full words. -/
def bufC3 : List Nat :=
  beWord 0 ++ beWord 2 ++ beWord 3 ++ beWord 4 ++ [7]

/-- C5 counterexample buffer: 5 head words; the path offset word (arg 2)
is 0, so the declared path length is word 0 = 1000, whose body overruns. -/
def bufC5 : List Nat :=
  beWord 1000 ++ beWord 0 ++ beWord 0 ++ beWord 66 ++ beWord 0

/-- C5 witness buffer: 6 words; path offset 128, declared length
`u256(H[128:160]) = 2`, so `128 + 32 + 2 <= 192 < 128 + 32 + 64`. -/
def bufC5w : List Nat :=
  beWord 0 ++ beWord 0 ++ beWord 128 ++ beWord 0 ++ beWord 2 ++ beWord 0

/-- C7 buffer: selector 38ed1739 head `[1000, 0, 160, to, 0]` followed by
a 2-element path `[0xaa, 0xbb]` at byte offset 160. -/
def bufC7 : List Nat :=
  beWord 1000 ++ beWord 0 ++ beWord 160 ++ beWord 4660 ++ beWord 0 ++
  beWord 2 ++ beWord 170 ++ beWord 187

/-- C8 counterexample buffer: 3 head words only; the path offset (word 2)
is 0 and the length word there is 0, but words 3 and 4 are missing. -/
def bufC8 : List Nat := beWord 0 ++ beWord 0 ++ beWord 0

/-- C8 witness buffer: 5 full head words; path offset 128 where the
length word (word 4) is 0. -/
def bufC8w : List Nat :=
  beWord 0 ++ beWord 5 ++ beWord 128 ++ beWord 119 ++ beWord 0

/-- C9 buffer: 6 words; V3 path offset word is 32, pointing inside the
5-word head; the length word there (word 1) is 20, so the path bytes are
the first 20 bytes of word 2. -/
def bufC9 : List Nat :=
  beWord 32 ++ beWord 20 ++ beWord 0 ++ beWord 3 ++ beWord 4 ++ beWord 5

/-- Length of `words`: the chunk count is `ceil(len / 32)`. -/
theorem words_length (payload : List Nat) :
    (words payload).length = (payload.length + 31) / 32 := by
  simp [words]

/-- The only failures `read_dyn` can produce are the head-out-of-bounds
and body-truncated kinds. -/
theorem read_dyn_error_kinds (p : List Nat) (o : Nat) (e : DecodeErr)
    (h : read_dyn p o = .error e) : e = .dynHeadOOB ∨ e = .dynBodyTrunc := by
  unfold read_dyn at h
  split at h
  · injection h with h
    exact Or.inl h.symm
  · split at h
    · injection h with h
      exact Or.inr h.symm
    · exact absurd h (by simp)

/-- Claim C1 counterexample: `is_offset_like 0 0` is `true`, although the
spec formula `0 <= v <= total - 32` is false at `v = 0, total = 0`
(so for `total < 32` the function does not reject everything). -/
theorem is_offset_like_total_lt_32_cex :
    is_offset_like 0 0 = true ∧
    ¬ ((0 : Int) % 32 = 0 ∧ (0 : Int) ≤ 0 ∧ (0 : Int) ≤ 0 - 32) := by
  decide

/-- Claim C1 (amended): `is_offset_like v total` is true iff `v` is a
multiple of 32 and either `total ≥ 32` and `0 ≤ v ≤ total - 32` (the
spec's range), or `total < 32` and `v = 0` (the clamped lower edge the
source's `max(0, total - 32)` admits). -/
theorem is_offset_like_char (v total : Int) :
    is_offset_like v total = true ↔
      (v % 32 = 0 ∧
        ((32 ≤ total ∧ 0 ≤ v ∧ v ≤ total - 32) ∨ (total < 32 ∧ v = 0))) := by
  unfold is_offset_like
  simp only [Bool.and_eq_true, beq_iff_eq, decide_eq_true_eq]
  rcases max_cases (0 : Int) (total - 32) with ⟨he, hc⟩ | ⟨he, hc⟩ <;> rw [he] <;> omega

set_option maxRecDepth 8000 in
/-- Claim C2 counterexample: a 129-byte buffer (only 4 full head words;
the fifth chunk is the single byte 7) is decoded by `decode_v2` under
selector 38ed1739 with no error at all: the short final chunk is read as
the integer 7 (deadline), instead of any truncated-head failure. -/
theorem decode_v2_short_head_silent_cex :
    decode_v2 bufC2 SEL_V2_SWAP_EXACT_TOKENS_FOR_TOKENS =
      .ok ({ amount0 := 0, amount1 := some 0,
             to_addr := beBytes 20 153, deadline := 7 }, []) ∧
    bufC2.length = 129 ∧ 129 < 5 * 32 := by
  refine ⟨by rfl, by rfl, by decide⟩

/-- The only failures `decode_path_at_arg` can produce are the Python
IndexError at the offset word, the bad-offset check, the two `read_dyn`
kinds, and the path-truncation check. -/
theorem decode_path_at_arg_error_kinds (H : List Nat) (i : Nat) (e : DecodeErr)
    (h : decode_path_at_arg H i = .error e) :
    e = .indexError ∨ e = .badPathOffset ∨ e = .dynHeadOOB ∨
    e = .dynBodyTrunc ∨ e = .pathTruncated := by
  unfold decode_path_at_arg at h
  split at h
  · injection h with h
    exact Or.inl h.symm
  · split at h
    · split at h
      · rename_i e2 hr
        injection h with h
        subst h
        rcases read_dyn_error_kinds H _ e2 hr with h2 | h2 <;> subst h2
        · exact Or.inr (Or.inr (Or.inl rfl))
        · exact Or.inr (Or.inr (Or.inr (Or.inl rfl)))
      · split at h
        · exact absurd h (by simp)
        · split at h
          · injection h with h
            exact Or.inr (Or.inr (Or.inr (Or.inr h.symm)))
          · exact absurd h (by simp)
    · injection h with h
      exact Or.inr (Or.inl h.symm)

/-- Claim C2 (amended): `decode_v2` has no truncated-head check or error
kind at all; when the buffer yields fewer 32-byte chunks than the layout
indexes (5 for the token variants, 4 for the ETH variants) decoding
always fails, but with the unstructured Python IndexError at the first
missing word or with one of the structured path-decoding failures raised
from the words that are present (bad path offset, dynamic head/body,
path truncated) — never a truncated-head kind. -/
theorem decode_v2_missing_words_fails (payload : List Nat) (sel : String)
    (hs : ((sel = SEL_V2_SWAP_EXACT_TOKENS_FOR_TOKENS ∨
            sel = SEL_V2_SWAP_TOKENS_FOR_EXACT_TOKENS ∨
            sel = SEL_V2_SWAP_EXACT_TOKENS_FOR_ETH) ∧
           (words payload).length < 5) ∨
          ((sel = SEL_V2_SWAP_EXACT_ETH_FOR_TOKENS ∨
            sel = SEL_V2_SWAP_ETH_FOR_EXACT_TOKENS) ∧
           (words payload).length < 4)) :
    ∃ e, decode_v2 payload sel = .error e ∧
      (e = .indexError ∨ e = .badPathOffset ∨ e = .dynHeadOOB ∨
       e = .dynBodyTrunc ∨ e = .pathTruncated) := by
  rcases hs with ⟨hsel, hlt⟩ | ⟨hsel, hlt⟩
  · have h4 : (words payload).get? 4 = none := List.get?_eq_none.mpr (by omega)
    unfold decode_v2
    rw [if_pos hsel]
    rcases h0 : (words payload).get? 0 with _ | w0
    · simp only [h0]
      exact ⟨.indexError, rfl, Or.inl rfl⟩
    · simp only [h0]
      rcases h1 : (words payload).get? 1 with _ | w1
      · simp only [h1]
        exact ⟨.indexError, rfl, Or.inl rfl⟩
      · simp only [h1]
        rcases hp : decode_path_at_arg payload 2 with e | path
        · simp only [hp]
          exact ⟨e, rfl, decode_path_at_arg_error_kinds payload 2 e hp⟩
        · simp only [hp]
          rcases h3 : (words payload).get? 3 with _ | w3
          · simp only [h3]
            exact ⟨.indexError, rfl, Or.inl rfl⟩
          · simp only [h3, h4]
            exact ⟨.indexError, rfl, Or.inl rfl⟩
  · have hne : ¬ (sel = SEL_V2_SWAP_EXACT_TOKENS_FOR_TOKENS ∨
                  sel = SEL_V2_SWAP_TOKENS_FOR_EXACT_TOKENS ∨
                  sel = SEL_V2_SWAP_EXACT_TOKENS_FOR_ETH) := by
      rcases hsel with h | h <;> subst h <;> decide
    have h3 : (words payload).get? 3 = none := List.get?_eq_none.mpr (by omega)
    unfold decode_v2
    rw [if_neg hne, if_pos hsel]
    rcases h0 : (words payload).get? 0 with _ | w0
    · simp only [h0]
      exact ⟨.indexError, rfl, Or.inl rfl⟩
    · simp only [h0]
      rcases hp : decode_path_at_arg payload 1 with e | path
      · simp only [hp]
        exact ⟨e, rfl, decode_path_at_arg_error_kinds payload 1 e hp⟩
      · simp only [hp]
        rcases h2 : (words payload).get? 2 with _ | w2
        · simp only [h2]
          exact ⟨.indexError, rfl, Or.inl rfl⟩
        · simp only [h2, h3]
          exact ⟨.indexError, rfl, Or.inl rfl⟩

set_option maxRecDepth 8000 in
/-- Claim C2 amended, witnessed on a 64-byte ETH-variant buffer (2 chunks
while the layout indexes words 0..3) whose path-offset word is the
non-offset-like value 1: decoding fails (here with the structured
bad-offset kind, not IndexError). -/
theorem decode_v2_missing_words_fails_witness :
    ∃ e, decode_v2 bufC2w SEL_V2_SWAP_EXACT_ETH_FOR_TOKENS = .error e ∧
      (e = .indexError ∨ e = .badPathOffset ∨ e = .dynHeadOOB ∨
       e = .dynBodyTrunc ∨ e = .pathTruncated) :=
  decode_v2_missing_words_fails bufC2w SEL_V2_SWAP_EXACT_ETH_FOR_TOKENS
    (Or.inr ⟨Or.inl rfl, by decide⟩)

set_option maxRecDepth 8000 in
/-- Claim C3 counterexample: a 129-byte buffer (fewer than 160 bytes, so
fewer than 5 full head words) passes the `len(words) < 5` precondition
check of `decode_v3_exact` and in fact decodes successfully — the short
fifth chunk is read as the integer 7. -/
theorem decode_v3_short_succeeds_cex :
    decode_v3_exact bufC3 SEL_V3_EXACT_INPUT =
      .ok ({ recipient := beBytes 20 2, deadline := 3,
             amounts := .input 4 7 }, []) ∧
    bufC3.length = 129 ∧ 129 < 160 := by
  refine ⟨by rfl, by rfl, by decide⟩

/-- Claim C3 (amended): `decode_v3_exact` fails with V3StructTooShort
exactly when the buffer yields fewer than 5 chunks, i.e. when its length
is at most 128 bytes; for 129 to 159 bytes it proceeds past the check
although the fifth word is short. -/
theorem decode_v3_too_short_iff (payload : List Nat) (sel : String) :
    decode_v3_exact payload sel = .error .v3TooShort ↔ payload.length ≤ 128 := by
  have hw : (words payload).length = (payload.length + 31) / 32 := words_length payload
  unfold decode_v3_exact
  by_cases h : (words payload).length < 5
  · rw [if_pos h]
    simp only [true_iff]
    omega
  · rw [if_neg h]
    have hlen : ¬ payload.length ≤ 128 := by omega
    constructor
    · intro heq
      exfalso
      split at heq
      · exact absurd heq (by simp)
      · split at heq
        · split at heq
          · rename_i e hr
            rcases read_dyn_error_kinds payload _ e hr with he | he <;>
              subst he <;> exact absurd heq (by simp)
          · split at heq
            · exact absurd heq (by simp)
            · exact absurd heq (by simp)
        · exact absurd heq (by simp)
    · intro hle
      exact absurd hle hlen

/-- Claim C4: `read_dyn` fails with DynamicHeadOutOfBounds exactly when
`off + 32 > len(buffer)`; otherwise, with `length` the big-endian value
of the 32-byte word at `off`, it fails with DynamicBodyTruncated exactly
when `off + 32 + length > len(buffer)`; otherwise it returns `length`
and the exact slice `buffer[off+32 : off+32+length]` (so it succeeds at
the exact boundary `off + 32 + length = len(buffer)`). -/
theorem read_dyn_spec (p : List Nat) (off : Nat) :
    (read_dyn p off = .error .dynHeadOOB ↔ p.length < off + 32) ∧
    (read_dyn p off = .error .dynBodyTrunc ↔
      (off + 32 ≤ p.length ∧
       p.length < off + 32 + u256 (slice p off (off + 32)))) ∧
    (read_dyn p off =
        .ok (u256 (slice p off (off + 32)),
             slice p (off + 32) (off + 32 + u256 (slice p off (off + 32)))) ↔
      off + 32 + u256 (slice p off (off + 32)) ≤ p.length) := by
  unfold read_dyn
  by_cases h1 : p.length < off + 32
  · rw [if_pos h1]
    refine ⟨by simp [h1], by simp <;> omega, by simp <;> omega⟩
  · rw [if_neg h1]
    by_cases h2 : p.length < off + 32 + u256 (slice p off (off + 32))
    · rw [if_pos h2]
      refine ⟨by simp <;> omega, by simp <;> omega, by simp <;> omega⟩
    · rw [if_neg h2]
      refine ⟨by simp <;> omega, by simp <;> omega, by simp <;> omega⟩

set_option maxRecDepth 8000 in
/-- Claim C5 counterexample: selector 38ed1739 with path offset 0 and a
declared element count of 1000 at that offset: the range
`off + 32 + 1000 * 32` far exceeds the 160-byte buffer, yet decoding
fails with DynamicBodyTruncated (raised earlier inside `read_dyn`), not
with the PathTruncated kind. -/
theorem decode_v2_dyn_trunc_not_path_cex :
    decode_v2 bufC5 SEL_V2_SWAP_EXACT_TOKENS_FOR_TOKENS = .error .dynBodyTrunc ∧
    is_offset_like 0 160 = true ∧
    u256 (slice bufC5 0 32) = 1000 ∧
    bufC5.length < 0 + 32 + 1000 * 32 := by
  refine ⟨by rfl, by decide, by rfl, by decide⟩

/-- Claim C5 (amended): path decoding fails with PathTruncated when the
offset word is offset-like, the dynamic-body bound `off + 32 + N` still
fits the buffer, and `off + 32 + N * 32` exceeds it; when even
`off + 32 + N` exceeds the buffer, `read_dyn` fails first with
DynamicBodyTruncated. -/
theorem decode_path_trunc_char (H : List Nat) (i : Nat) (wd : List Nat)
    (hwd : (words H).get? i = some wd)
    (hoff : is_offset_like (u256 wd : Int) (H.length : Int) = true)
    (hbody : u256 wd + 32 + u256 (slice H (u256 wd) (u256 wd + 32)) ≤ H.length)
    (htrunc : H.length < u256 wd + 32 + u256 (slice H (u256 wd) (u256 wd + 32)) * 32) :
    decode_path_at_arg H i = .error .pathTruncated := by
  have hN1 : ¬ u256 (slice H (u256 wd) (u256 wd + 32)) = 0 := by
    intro h0
    rw [h0] at hbody htrunc
    omega
  have hr : read_dyn H (u256 wd) =
      .ok (u256 (slice H (u256 wd) (u256 wd + 32)),
           slice H (u256 wd + 32) (u256 wd + 32 + u256 (slice H (u256 wd) (u256 wd + 32)))) := by
    unfold read_dyn
    rw [if_neg (by omega), if_neg (by omega)]
  unfold decode_path_at_arg
  rw [hwd]
  simp only [hoff, if_true, hr, if_neg hN1, if_pos htrunc]

set_option maxRecDepth 8000 in
/-- Claim C5 amended, witnessed on a 192-byte buffer with path offset 128
and declared length 2 (`128 + 32 + 2 ≤ 192 < 128 + 32 + 64`). -/
theorem decode_path_trunc_char_witness :
    decode_path_at_arg bufC5w 2 = .error .pathTruncated :=
  decode_path_trunc_char bufC5w 2 (beWord 128) (by decide) (by decide)
    (by decide) (by decide)

/-- Reindexing helper: a head plus a shifted `List.range` map equals one
map over the extended range. -/
theorem cons_map_range_eq_map_range_succ {α : Type} (f g : Nat → α) (x : α) (m : Nat)
    (hx : x = f 0) (h : ∀ j, g j = f (j + 1)) :
    x :: (List.range m).map g = (List.range (m + 1)).map f := by
  subst hx
  rw [List.range_succ_eq_map, List.map_cons, List.map_map]
  congr 1
  refine List.map_congr_left ?_
  intro j _
  simp only [Function.comp_apply, Nat.succ_eq_add_one]
  exact h j

/-- The `parse_v3_loop` tail: starting at index `i`, it produces exactly
`(len - i) / 23` further tokens, the j-th taken from the 20 bytes at
`i + 3 + 23 * j` (after the 3 skipped fee bytes). -/
theorem parse_v3_loop_eq (b : List Nat) (n i : Nat) (hn : b.length - i ≤ n) :
    parse_v3_loop b i =
      (List.range ((b.length - i) / 23)).map
        (fun j => slice b (i + 3 + 23 * j) (i + 23 + 23 * j)) := by
  induction n generalizing i with
  | zero =>
    rw [parse_v3_loop]
    rw [if_neg (by omega)]
    rw [show (b.length - i) / 23 = 0 from by omega]
    rfl
  | succ n ih =>
    rw [parse_v3_loop]
    by_cases h1 : i < b.length
    · rw [if_pos h1]
      by_cases h2 : b.length < i + 23
      · rw [if_pos h2]
        rw [show (b.length - i) / 23 = 0 from Nat.div_eq_of_lt (by omega)]
        rfl
      · rw [if_neg h2]
        rw [ih (i + 23) (by omega)]
        have hd : (b.length - i) / 23 = (b.length - (i + 23)) / 23 + 1 := by
          rw [show b.length - (i + 23) = b.length - i - 23 from by omega]
          exact Nat.div_eq_sub_div (by omega) (by omega)
        rw [hd]
        refine cons_map_range_eq_map_range_succ _ _ _ _ (by norm_num) ?_
        intro j
        show slice b (i + 23 + 3 + 23 * j) (i + 23 + 23 + 23 * j) =
             slice b (i + 3 + 23 * (j + 1)) (i + 23 + 23 * (j + 1))
        rw [show i + 3 + 23 * (j + 1) = i + 23 + 3 + 23 * j from by ring,
            show i + 23 + 23 * (j + 1) = i + 23 + 23 + 23 * j from by ring]
    · rw [if_neg h1]
      rw [show (b.length - i) / 23 = 0 from by omega]
      rfl

/-- Claim C6: `parse_v3_path_bytes` is total by construction (it is a
Lean function) and returns `[]` when fewer than 20 bytes are given, and
otherwise exactly `1 + (len - 20) / 23` tokens, token `k` being the 20
bytes at position `23 * k` — so trailing fee bytes without a following
full token are dropped without error. -/
theorem parse_v3_path_bytes_char (b : List Nat) :
    parse_v3_path_bytes b =
      if b.length < 20 then []
      else (List.range (1 + (b.length - 20) / 23)).map
        (fun k => slice b (23 * k) (23 * k + 20)) := by
  unfold parse_v3_path_bytes
  by_cases h : b.length < 20
  · rw [if_pos h, if_pos h]
  · rw [if_neg h, if_neg h]
    rw [parse_v3_loop_eq b b.length 20 (by omega)]
    rw [show 1 + (b.length - 20) / 23 = (b.length - 20) / 23 + 1 from by omega]
    refine cons_map_range_eq_map_range_succ _ _ _ _ (by norm_num) ?_
    intro j
    show slice b (20 + 3 + 23 * j) (20 + 23 + 23 * j) =
         slice b (23 * (j + 1)) (23 * (j + 1) + 20)
    rw [show 23 * (j + 1) = 20 + 3 + 23 * j from by ring,
        show 20 + 3 + 23 * j + 20 = 20 + 23 + 23 * j from by ring]

set_option maxRecDepth 8000 in
/-- Claim C7: selector 38ed1739 with head words
`[amountIn = 1000, amountOutMin = 0, pathOffset = 160, to, deadline = 0]`
followed at byte offset 160 by length word 2 and two address words
decodes to exactly those field values and the two path tokens; in
particular `amount1 = 0`. -/
theorem decode_v2_example_38ed1739 :
    decode_v2 bufC7 SEL_V2_SWAP_EXACT_TOKENS_FOR_TOKENS =
      .ok ({ amount0 := 1000, amount1 := some 0,
             to_addr := beBytes 20 4660, deadline := 0 },
           [beBytes 20 170, beBytes 20 187]) := by
  rfl

set_option maxRecDepth 8000 in
/-- Claim C8 counterexample: a 96-byte token-variant buffer whose path
offset word (argument 2) is 0 — which passes the offset-like check — and
whose length word at offset 0 is 0, still fails (with IndexError), since
head words 3 and 4 are missing; `decode_v2` does not succeed on every
such buffer. -/
theorem decode_v2_zero_path_missing_tail_cex :
    decode_v2 bufC8 SEL_V2_SWAP_EXACT_TOKENS_FOR_TOKENS = .error .indexError ∧
    u256 (slice bufC8 64 96) = 0 ∧
    is_offset_like 0 96 = true ∧
    u256 (slice bufC8 0 32) = 0 := by
  refine ⟨by rfl, by rfl, by decide, by rfl⟩

/-- Offset-like values stay in bounds once the buffer holds at least one
word: `off + 32 <= total`. -/
theorem is_offset_like_le (off total : Nat)
    (h : is_offset_like (off : Int) (total : Int) = true) (h32 : 32 ≤ total) :
    off + 32 ≤ total := by
  unfold is_offset_like at h
  simp only [Bool.and_eq_true, beq_iff_eq, decide_eq_true_eq] at h
  rcases h with ⟨-, -, hle⟩
  rcases max_cases (0 : Int) ((total : Int) - 32) with ⟨he, hc⟩ | ⟨he, hc⟩ <;>
    rw [he] at hle <;> omega

/-- Claim C8 (amended): for every recognized V2 selector, when the buffer
also contains every head word the layout indexes (5 chunks for token
variants, 4 for ETH variants), a zero-length path at an offset-like
position is not a decode error: `decode_v2` succeeds with an empty path
token list. -/
theorem decode_v2_zero_path_ok (payload : List Nat) (sel : String) (argi : Nat) (wd : List Nat)
    (hsel : ((sel = SEL_V2_SWAP_EXACT_TOKENS_FOR_TOKENS ∨
              sel = SEL_V2_SWAP_TOKENS_FOR_EXACT_TOKENS ∨
              sel = SEL_V2_SWAP_EXACT_TOKENS_FOR_ETH) ∧ argi = 2 ∧
             5 ≤ (words payload).length) ∨
           ((sel = SEL_V2_SWAP_EXACT_ETH_FOR_TOKENS ∨
             sel = SEL_V2_SWAP_ETH_FOR_EXACT_TOKENS) ∧ argi = 1 ∧
             4 ≤ (words payload).length))
    (hwd : (words payload).get? argi = some wd)
    (hoff : is_offset_like (u256 wd : Int) (payload.length : Int) = true)
    (hln : u256 (slice payload (u256 wd) (u256 wd + 32)) = 0) :
    ∃ fields, decode_v2 payload sel = .ok (fields, []) := by
  have hw : (words payload).length = (payload.length + 31) / 32 := words_length payload
  have h32 : 32 ≤ payload.length := by
    rcases hsel with ⟨-, -, hl⟩ | ⟨-, -, hl⟩ <;> omega
  have hoffle : u256 wd + 32 ≤ payload.length := is_offset_like_le _ _ hoff h32
  have hr : read_dyn payload (u256 wd) =
      .ok (0, slice payload (u256 wd + 32) (u256 wd + 32 + 0)) := by
    unfold read_dyn
    rw [hln]
    rw [if_neg (by omega), if_neg (by omega)]
  have hpath : decode_path_at_arg payload argi = .ok [] := by
    unfold decode_path_at_arg
    simp only [hwd, hoff, if_true, hr, hln]
  rcases hsel with ⟨hs, hargi, hl⟩ | ⟨hs, hargi, hl⟩
  · subst hargi
    obtain ⟨w0, h0⟩ : ∃ w, (words payload).get? 0 = some w :=
      ⟨_, List.get?_eq_get (by omega)⟩
    obtain ⟨w1, h1⟩ : ∃ w, (words payload).get? 1 = some w :=
      ⟨_, List.get?_eq_get (by omega)⟩
    obtain ⟨w3, h3⟩ : ∃ w, (words payload).get? 3 = some w :=
      ⟨_, List.get?_eq_get (by omega)⟩
    obtain ⟨w4, h4⟩ : ∃ w, (words payload).get? 4 = some w :=
      ⟨_, List.get?_eq_get (by omega)⟩
    refine ⟨{ amount0 := u256 w0, amount1 := some (u256 w1),
              to_addr := to_hex_addr w3, deadline := u256 w4 }, ?_⟩
    unfold decode_v2
    rw [if_pos hs]
    simp only [h0, h1, hpath, h3, h4]
  · subst hargi
    obtain ⟨w0, h0⟩ : ∃ w, (words payload).get? 0 = some w :=
      ⟨_, List.get?_eq_get (by omega)⟩
    obtain ⟨w2, h2⟩ : ∃ w, (words payload).get? 2 = some w :=
      ⟨_, List.get?_eq_get (by omega)⟩
    obtain ⟨w3, h3⟩ : ∃ w, (words payload).get? 3 = some w :=
      ⟨_, List.get?_eq_get (by omega)⟩
    have hne : ¬ (sel = SEL_V2_SWAP_EXACT_TOKENS_FOR_TOKENS ∨
                  sel = SEL_V2_SWAP_TOKENS_FOR_EXACT_TOKENS ∨
                  sel = SEL_V2_SWAP_EXACT_TOKENS_FOR_ETH) := by
      rcases hs with hs | hs <;> subst hs <;> decide
    refine ⟨{ amount0 := u256 w0, amount1 := none,
              to_addr := to_hex_addr w2, deadline := u256 w3 }, ?_⟩
    unfold decode_v2
    rw [if_neg hne, if_pos hs]
    simp only [h0, hpath, h2, h3]

set_option maxRecDepth 8000 in
/-- Claim C8 amended, witnessed: a 160-byte token-variant buffer with
path offset 128 whose length word (word 4) is 0 decodes to an empty
path. -/
theorem decode_v2_zero_path_ok_witness :
    ∃ fields, decode_v2 bufC8w SEL_V2_SWAP_EXACT_TOKENS_FOR_TOKENS = .ok (fields, []) :=
  decode_v2_zero_path_ok bufC8w SEL_V2_SWAP_EXACT_TOKENS_FOR_TOKENS 2 (beWord 128)
    (Or.inl ⟨Or.inl rfl, rfl, by decide⟩) (by decide) (by decide) (by decide)

set_option maxRecDepth 8000 in
/-- Claim C9: the decoders place no head-sized lower bound on dynamic
offsets: on `bufC9` the V3 path-offset word is 32 — inside the 5-word
(160-byte) head region — and `decode_v3_exact` succeeds, reading the
20 path bytes from bytes 64..84, which overlap the head words. -/
theorem decode_v3_offset_in_head_ok :
    decode_v3_exact bufC9 SEL_V3_EXACT_INPUT =
      .ok ({ recipient := beBytes 20 20, deadline := 0,
             amounts := .input 3 4 }, [List.replicate 20 0]) ∧
    u256 (slice bufC9 0 32) = 32 ∧
    [List.replicate 20 0] = [slice bufC9 64 84] ∧
    32 + 32 + 20 ≤ 5 * 32 := by
  have h1 : parse_v3_loop (List.replicate 20 0) 20 = [] := by
    rw [parse_v3_loop]
    norm_num
  have hp : parse_v3_path_bytes (List.replicate 20 0) = [List.replicate 20 0] := by
    unfold parse_v3_path_bytes
    rw [if_neg (by decide), h1]
    decide
  refine ⟨?_, by rfl, by rfl, by decide⟩
  have hstep : decode_v3_exact bufC9 SEL_V3_EXACT_INPUT =
      .ok ({ recipient := beBytes 20 20, deadline := 0,
             amounts := .input 3 4 }, parse_v3_path_bytes (List.replicate 20 0)) := by
    rfl
  rw [hstep, hp]

/-- A hex digit stays a hex digit under ASCII lower-casing (uppercase
digits map into the lowercase range). -/
theorem hexVal_pyLowerChar (c : Nat) (h : (hexVal c).isSome) :
    (hexVal (pyLowerChar c)).isSome := by
  unfold hexVal pyLowerChar at *
  split_ifs at h ⊢ <;> simp_all <;> omega

/-- `fromhexAux` succeeds on any even-length string of hex digits. -/
theorem fromhexAux_all_hex (n : Nat) : ∀ (s : List Nat), s.length ≤ n →
    (∀ c ∈ s, (hexVal c).isSome) → s.length % 2 = 0 → (fromhexAux s).isSome := by
  induction n with
  | zero =>
    intro s hlen _ _
    have hs : s = [] := List.eq_nil_of_length_eq_zero (by omega)
    subst hs
    simp [fromhexAux]
  | succ n ih =>
    intro s hlen hhex heven
    match s with
    | [] => simp [fromhexAux]
    | [c] => simp at heven
    | c :: c2 :: rest2 =>
      have hc : (hexVal c).isSome := hhex c (by simp)
      have hc2 : (hexVal c2).isSome := hhex c2 (by simp)
      have hcne : ¬ c = 32 := by
        intro hceq
        subst hceq
        simp [hexVal] at hc
      rcases ha : hexVal c with _ | a
      · rw [ha] at hc
        simp at hc
      · rcases hb : hexVal c2 with _ | b
        · rw [hb] at hc2
          simp at hc2
        · have htail := ih rest2 (by simp at hlen ⊢; omega)
            (fun x hx => hhex x (by simp [hx])) (by simp at heven ⊢; omega)
          rcases hrest : fromhexAux rest2 with _ | bs
          · rw [hrest] at htail
            simp at htail
          · unfold fromhexAux
            rw [if_neg hcne]
            simp only [ha, hb, hrest, Option.map_some]
            simp

/-- Claim C10: for every non-empty even-length string of hex digits `s`
(code points), `as_bytes` on `"0x" + s` succeeds, while on `"0X" + s` it
fails with the invalid-hex error: the prefix strip is case-sensitive and
runs before lower-casing, so the `X` survives as a lower-cased `x` that
`bytes.fromhex` rejects. -/
theorem as_bytes_prefix_case (s : List Nat)
    (hhex : ∀ c ∈ s, (hexVal c).isSome) (heven : s.length % 2 = 0)
    (_hne : s ≠ []) :
    (∃ bs, as_bytes (48 :: 120 :: s) = .ok bs) ∧
    as_bytes (48 :: 88 :: s) = .error .malformedHex := by
  have hhex2 : ∀ c ∈ s.map pyLowerChar, (hexVal c).isSome := by
    intro c hc
    rcases List.mem_map.mp hc with ⟨d, hd, rfl⟩
    exact hexVal_pyLowerChar d (hhex d hd)
  have heven2 : (s.map pyLowerChar).length % 2 = 0 := by
    simpa using heven
  constructor
  · have hstrip : strip0x (48 :: 120 :: s) = s := by
      simp [strip0x]
    have hsome := fromhexAux_all_hex (s.map pyLowerChar).length (s.map pyLowerChar)
      le_rfl hhex2 heven2
    rcases hr : fromhexAux (s.map pyLowerChar) with _ | bs
    · rw [hr] at hsome
      simp at hsome
    · refine ⟨bs, ?_⟩
      unfold as_bytes
      rw [hstrip]
      rw [if_neg (not_not_intro heven2)]
      rw [hr]
  · have hstrip : strip0x (48 :: 88 :: s) = 48 :: 88 :: s := by
      simp [strip0x]
    have hmap : (48 :: 88 :: s).map pyLowerChar = 48 :: 120 :: s.map pyLowerChar := by
      simp [pyLowerChar]
    have hl : (48 :: 120 :: s.map pyLowerChar).length % 2 = 0 := by
      simp only [List.length_cons, List.length_map]
      omega
    have hnone : fromhexAux (48 :: 120 :: s.map pyLowerChar) = none := by
      rfl
    unfold as_bytes
    rw [hstrip, hmap]
    rw [if_neg (not_not_intro hl)]
    rw [hnone]

/-- Claim C10, witnessed at `s = "ab"` (code points 97, 98): `0xab`
parses to the byte 171 and `0Xab` is rejected. -/
theorem as_bytes_prefix_case_witness :
    (∀ c ∈ ([97, 98] : List Nat), (hexVal c).isSome) ∧
    ((∃ bs, as_bytes (48 :: 120 :: [97, 98]) = .ok bs) ∧
     as_bytes (48 :: 88 :: [97, 98]) = .error .malformedHex) :=
  ⟨by decide, as_bytes_prefix_case [97, 98] (by decide) (by decide) (by decide)⟩

end Slipsentry
